import Mathlib

/-!
Shallow embedding of `BedrockOpenAIModel.get_response`
(src/backend/researcher/server.py, lines 31-171): turn normalization,
request building, tool filtering, response decoding and usage mapping
for the Bedrock OpenAI protocol-translation adapter.

Python values flowing through the adapter are modelled by a `Json` type;
Python attribute access (`hasattr`/`getattr`) is modelled by `Option`
fields; code that can raise is modelled in `Except String`.
-/

/-- JSON-like Python values (results of `json.loads`, dict/list literals). -/
inductive Json where
  | null : Json
  | bool (b : Bool) : Json
  | num (n : Int) : Json
  | str (s : String) : Json
  | arr (xs : List Json) : Json
  | obj (kvs : List (String × Json)) : Json

/-- Python dict key lookup (first binding wins, as in a dict literal). -/
def jLookup : List (String × Json) → String → Option Json
  | [], _ => none
  | (k, v) :: rest, key => if k = key then some v else jLookup rest key

/-- `d[k]` / `d.get(k)` on a value: `some` only when the value is a dict
holding the key (on a non-dict, the Python subscript raises). -/
def jGet? : Json → String → Option Json
  | .obj kvs, k => jLookup kvs k
  | _, _ => none

/-- `xs[i]` on a value: `some` only when the value is a list long enough. -/
def jIdx? : Json → Nat → Option Json
  | .arr xs, i => xs.get? i
  | _, _ => none

/-- Python truthiness of a JSON-like value. -/
def jTruthy : Json → Bool
  | .null => false
  | .bool b => b
  | .num n => n != 0
  | .str s => s != ""
  | .arr xs => !xs.isEmpty
  | .obj kvs => !kvs.isEmpty

mutual
/-- Python `str(...)` coercion of a JSON-like value.  Strings pass through
unchanged (the only case the adapter's callers exercise); containers are
rendered recursively (Python would additionally repr-quote nested strings,
a detail no property here depends on). -/
def pyStr : Json → String
  | .null => "None"
  | .bool true => "True"
  | .bool false => "False"
  | .num n => toString n
  | .str s => s
  | .arr xs => "[" ++ pyStrList xs ++ "]"
  | .obj kvs => "\x7b" ++ pyStrObj kvs ++ "\x7d"

/-- Comma-separated rendering of list elements. -/
def pyStrList : List Json → String
  | [] => ""
  | [x] => pyStr x
  | x :: xs => pyStr x ++ ", " ++ pyStrList xs

/-- Comma-separated rendering of dict entries. -/
def pyStrObj : List (String × Json) → String
  | [] => ""
  | [(k, v)] => k ++ ": " ++ pyStr v
  | (k, v) :: kvs => k ++ ": " ++ pyStr v ++ ", " ++ pyStrObj kvs
end

/-! ## Input-side model: conversation turns offered by the orchestrator

`get_response`'s `input` is either a plain string or a list of
heterogeneously shaped items (server.py lines 52-86).  An item can be a
Python str, a dict, or an object carrying attributes; an attribute that
the item does not expose is modelled as `none`. -/

/-- One element of an accessor-object's `content` list (lines 70-75):
an object exposing a `.text` attribute, a bare string, or anything else
(skipped by the loop). -/
inductive ContentPart where
  | withText (t : String) : ContentPart
  | plain (s : String) : ContentPart
  | skipped : ContentPart

/-- The `content` attribute of an accessor-style object: a string, a list
of parts, or any other value (coerced with `str(...)`). -/
inductive ObjContent where
  | text (s : String) : ObjContent
  | parts (ps : List ContentPart) : ObjContent
  | otherVal (j : Json) : ObjContent

/-- An accessor-style Python object; each field is `some` exactly when
`hasattr` holds for the corresponding attribute. -/
structure PyObj where
  role : Option Json := none
  content : Option ObjContent := none
  type : Option Json := none
  call_id : Option Json := none
  output : Option Json := none

/-- One element of the `input` list: a Python str, a dict, an
accessor-style object, or any other value (e.g. an int or None). -/
inductive InputItem where
  | text (s : String) : InputItem
  | dict (kvs : List (String × Json)) : InputItem
  | obj (o : PyObj) : InputItem
  | otherVal : InputItem

/-- The `input` argument itself: `str`, `list`, or anything else
(which appends no messages at all). -/
inductive PyInput where
  | text (s : String) : PyInput
  | list (items : List InputItem) : PyInput
  | otherVal : PyInput

/-- `item.get('type') == 'function_call_output'` / `item.type == ...`:
Python equality of the looked-up value with that string literal. -/
def isFCOTag : Option Json → Bool
  | some (.str t) => t == "function_call_output"
  | _ => false

/-- `part.text` / plain-str handling inside the content-list loop
(lines 71-75): parts with neither a `text` attribute nor str type are
skipped. -/
def partText? : ContentPart → Option String
  | .withText t => some t
  | .plain s => some s
  | .skipped => none

/-- Lines 69-76: a list-valued content is replaced by its textual parts
joined with a single space; then `str(content)` is applied (line 77). -/
def objContentStr : ObjContent → String
  | .text s => s
  | .parts ps => String.intercalate " " (ps.filterMap partText?)
  | .otherVal j => pyStr j

/-- The body of the per-item branch chain (lines 56-86), returning the
wire message appended for the item, or `none` when the item matches no
branch (the source then silently skips it). -/
def normItem : InputItem → Option Json
  | .text s => some (.obj [("role", .str "user"), ("content", .str s)])
  | .dict kvs =>
    match jLookup kvs "role", jLookup kvs "content" with
    | some r, some c => some (.obj [("role", r), ("content", .str (pyStr c))])
    | _, _ =>
      if isFCOTag (jLookup kvs "type") then
        some (.obj [("role", .str "tool"),
                    ("tool_call_id", (jLookup kvs "call_id").getD (.str "")),
                    ("content", .str (pyStr ((jLookup kvs "output").getD (.str ""))))])
      else none
  | .obj o =>
    match o.role, o.content with
    | some r, some c => some (.obj [("role", r), ("content", .str (objContentStr c))])
    | _, _ =>
      if isFCOTag o.type then
        some (.obj [("role", .str "tool"),
                    ("tool_call_id", o.call_id.getD (.str "")),
                    ("content", .str (pyStr (o.output.getD (.str ""))))])
      else none
  | .otherVal => none

/-- The `for item in input` loop (lines 55-86): messages appended in
input order, unrecognized items skipped. -/
def normalizeList (items : List InputItem) : List Json :=
  items.filterMap normItem

/-- Lines 52-86: the `isinstance(input, str)` / `isinstance(input, list)`
dispatch.  Any other input type appends no messages. -/
def inputMessages : PyInput → List Json
  | .text s => [.obj [("role", .str "user"), ("content", .str s)]]
  | .list items => normalizeList items
  | .otherVal => []

/-- Python truthiness of the optional `system_instructions` string
(`if system_instructions:` on line 48; None and the empty string are
falsy). -/
def sysTruthy : Option String → Bool
  | none => false
  | some s => s != ""

/-- Lines 45-86: the `messages` array — an optional system message
followed by the messages derived from `input`. -/
def buildMessages (sys : Option String) (input : PyInput) : List Json :=
  (match sys with
   | some s => if s != "" then [Json.obj [("role", .str "system"), ("content", .str s)]] else []
   | none => []) ++ inputMessages input

/-- The `model_settings` object; `max_tokens = none` models the attribute
being absent (so that `getattr` falls back to its default). -/
structure PySettings where
  max_tokens : Option Int := none

/-- Line 91: `getattr(model_settings, 'max_tokens', 4096) if model_settings
else 4096`. -/
def maxTokensOf : Option PySettings → Int
  | some s => s.max_tokens.getD 4096
  | none => 4096

/-- A tool offered by the orchestrator; each field is `some` exactly when
the tool object exposes that attribute. -/
structure PyTool where
  name : Option String := none
  description : Option String := none
  params_json_schema : Option Json := none

/-- Line 102: the fixed allow-list of tool names. -/
def allowedToolNames : List String := ["ingest_financial_document"]

/-- Lines 103-110: the wire-schema rendering of one allowed tool
(`getattr(tool, 'description', '')` defaults a missing description). -/
def wireToolOf (t : PyTool) : Json :=
  .obj [("type", .str "function"),
        ("function", .obj [("name", .str (t.name.getD "")),
                           ("description", .str (t.description.getD "")),
                           ("parameters", t.params_json_schema.getD .null)])]

/-- Lines 97-110: the `openai_tools` accumulation — a tool is rendered
only if it exposes both `name` and `params_json_schema` and its name is
in the allow-list. -/
def filterTools (tools : List PyTool) : List Json :=
  tools.filterMap fun t =>
    if t.name.isSome && t.params_json_schema.isSome then
      if t.name.getD "" ∈ allowedToolNames then some (wireToolOf t) else none
    else none

/-- Lines 88-112: the wire request body — `messages` and `max_tokens`
always, `tools` only when the offered list is truthy and the filtered
list is non-empty. -/
def buildBody (sys : Option String) (input : PyInput)
    (settings : Option PySettings) (tools : List PyTool) : Json :=
  let messages := buildMessages sys input
  let base := [("messages", Json.arr messages),
               ("max_tokens", Json.num (maxTokensOf settings))]
  Json.obj
    (if !tools.isEmpty then
       let openai_tools := filterTools tools
       if !openai_tools.isEmpty then base ++ [("tools", Json.arr openai_tools)] else base
     else base)

/-! ## Output-side model: decoding the wire response (lines 124-171) -/

/-- Canonical output items built from the first choice's message:
`ResponseFunctionToolCall(id, call_id, name, arguments)` and
`ResponseOutputMessage` carrying one `ResponseOutputText`. -/
inductive OutputItem where
  | toolCall (id : String) (callId : String) (fnName : String) (arguments : String) : OutputItem
  | message (id : String) (text : String) : OutputItem
  deriving DecidableEq

/-- `"msg_" + result.get('id', 'unknown')` (lines 144 and 153): errors when
an `id` value is present but not a string (Python `str + non-str` raises). -/
def msgId (result : Json) : Except String String :=
  match jGet? result "id" with
  | none => .ok "msg_unknown"
  | some (.str s) => .ok ("msg_" ++ s)
  | some _ => .error "TypeError: can only concatenate str"

/-- Lines 133-139: one `tool_calls` entry becomes a
`ResponseFunctionToolCall`; a missing key raises, and the constructed
model requires string fields. -/
def decodeToolCall (tc : Json) : Except String OutputItem :=
  match jGet? tc "id" with
  | some (.str i) =>
    (match jGet? tc "function" with
     | some fn =>
       (match jGet? fn "name" with
        | some (.str n) =>
          (match jGet? fn "arguments" with
           | some (.str a) => .ok (.toolCall i i n a)
           | some _ => .error "ValidationError: arguments"
           | none => .error "KeyError: arguments")
        | some _ => .error "ValidationError: name"
        | none => .error "KeyError: name")
     | none => .error "KeyError: function")
  | some _ => .error "ValidationError: id"
  | none => .error "KeyError: id"

/-- The `for tool_call in message['tool_calls']` loop (lines 132-139):
entries are decoded in wire order; the first failing entry aborts the
call (the partially built list is discarded with the raised exception). -/
def decodeTCList : List Json → Except String (List OutputItem)
  | [] => .ok []
  | tc :: rest =>
    match decodeToolCall tc with
    | .error e => .error e
    | .ok item =>
      match decodeTCList rest with
      | .error e => .error e
      | .ok items => .ok (item :: items)

/-- Lines 131-139: `if 'tool_calls' in message and message['tool_calls']:`
followed by the per-entry loop (a truthy non-list value is not
iterable as tool-call dicts and raises). -/
def decodeToolCalls (mkvs : List (String × Json)) : Except String (List OutputItem) :=
  match jLookup mkvs "tool_calls" with
  | some tcs =>
    if jTruthy tcs then
      match tcs with
      | .arr l => decodeTCList l
      | _ => .error "TypeError: not iterable"
    else .ok []
  | none => .ok []

/-- Lines 142-149: `if message.get('content'):` appends one text message;
a truthy non-string content fails `ResponseOutputText` validation. -/
def decodeText (result : Json) (mkvs : List (String × Json)) : Except String (List OutputItem) :=
  match jLookup mkvs "content" with
  | some c =>
    if jTruthy c then
      match c with
      | .str t =>
        (match msgId result with
         | .ok mid => .ok [.message mid t]
         | .error e => .error e)
      | _ => .error "ValidationError: text"
    else .ok []
  | none => .ok []

/-- Lines 127-159 applied to the first choice's message dict: tool-call
items, then the optional text item, then the empty-output synthesis. -/
def decodeMessage (result : Json) (mkvs : List (String × Json)) : Except String (List OutputItem) :=
  match decodeToolCalls mkvs with
  | .error e => .error e
  | .ok toolItems =>
    match decodeText result mkvs with
    | .error e => .error e
    | .ok textItems =>
      let output := toolItems ++ textItems
      if output.isEmpty then
        match msgId result with
        | .error e => .error e
        | .ok mid => .ok [.message mid ""]
      else .ok output

/-- Lines 125-159: `result['choices'][0]['message']` (each step raises on a
missing/ill-typed layer) and the construction of the output list. -/
def decodeOutput (result : Json) : Except String (List OutputItem) :=
  match jGet? result "choices" with
  | none => .error "KeyError: choices"
  | some choices =>
    match jIdx? choices 0 with
    | none => .error "IndexError: choices"
    | some first =>
      match jGet? first "message" with
      | none => .error "KeyError: message"
      | some (.obj mkvs) => decodeMessage result mkvs
      | some _ => .error "TypeError: message"

/-- Lines 162-168: `usage_data = result.get('usage', {})` then the three
`usage_data.get(key, 0)` reads (calling `.get` on a non-dict usage value
raises). -/
def mapUsage (result : Json) : Except String (Json × Json × Json) :=
  match (jGet? result "usage").getD (.obj []) with
  | .obj kvs =>
    .ok ((jLookup kvs "prompt_tokens").getD (.num 0),
         (jLookup kvs "completion_tokens").getD (.num 0),
         (jLookup kvs "total_tokens").getD (.num 0))
  | _ => .error "AttributeError: get"

/-! ## Structural predicates on wire responses (spec vocabulary) -/

/-- The decoder's structural prefix: the first choice's message dict,
when `result['choices'][0]['message']` would succeed and yield a dict. -/
def messageOf (result : Json) : Option (List (String × Json)) :=
  match jGet? result "choices" with
  | none => none
  | some choices =>
    match jIdx? choices 0 with
    | none => none
    | some first =>
      match jGet? first "message" with
      | some (.obj mkvs) => some mkvs
      | _ => none

/-- `tool_calls` is absent from the message, or present but falsy. -/
def noToolCallsIn (mkvs : List (String × Json)) : Bool :=
  match jLookup mkvs "tool_calls" with
  | some tcs => !jTruthy tcs
  | none => true

/-- `content` is absent from the message, or present but falsy. -/
def noTextIn (mkvs : List (String × Json)) : Bool :=
  match jLookup mkvs "content" with
  | some c => !jTruthy c
  | none => true

/-- The response's `id`, when present, is a string (so that `"msg_" + id`
does not raise). -/
def idOk (result : Json) : Bool :=
  match jGet? result "id" with
  | none => true
  | some (.str _) => true
  | some _ => false

/-! ## Decoder lemmas -/

theorem messageOf_some_decode (result : Json) (mkvs : List (String × Json))
    (h : messageOf result = some mkvs) :
    decodeOutput result = decodeMessage result mkvs := by
  unfold messageOf at h
  unfold decodeOutput
  cases hc : jGet? result "choices" with
  | none => simp [hc] at h
  | some choices =>
    cases hi : jIdx? choices 0 with
    | none => simp [hc, hi] at h
    | some first =>
      cases hm : jGet? first "message" with
      | none => simp [hc, hi, hm] at h
      | some m =>
        cases m <;> simp [hc, hi, hm] at h ⊢
        exact congrArg _ h

theorem messageOf_none_error (result : Json)
    (h : messageOf result = none) :
    ∃ e, decodeOutput result = .error e := by
  unfold messageOf at h
  unfold decodeOutput
  cases hc : jGet? result "choices" with
  | none => exact ⟨_, rfl⟩
  | some choices =>
    cases hi : jIdx? choices 0 with
    | none => simp [hc, hi]
    | some first =>
      cases hm : jGet? first "message" with
      | none => simp [hc, hi, hm]
      | some m =>
        cases m <;> simp [hc, hi, hm] at h ⊢

theorem decodeMessage_ne_nil (result : Json) (mkvs : List (String × Json))
    (out : List OutputItem) (h : decodeMessage result mkvs = .ok out) : out ≠ [] := by
  unfold decodeMessage at h
  cases htc : decodeToolCalls mkvs with
  | error e => simp [htc] at h
  | ok toolItems =>
    cases htx : decodeText result mkvs with
    | error e => simp [htc, htx] at h
    | ok textItems =>
      simp only [htc, htx] at h
      by_cases he : (toolItems ++ textItems).isEmpty
      · simp only [he, if_pos] at h
        cases hm : msgId result with
        | error e => simp [hm] at h
        | ok mid => simp [hm] at h; simp [← h]
      · simp only [he, if_neg, if_false, Bool.false_eq_true] at h
        simp at h
        rw [← h]
        simpa [List.isEmpty_iff] using he

theorem decodeToolCalls_none (mkvs : List (String × Json))
    (h : noToolCallsIn mkvs = true) : decodeToolCalls mkvs = .ok [] := by
  unfold noToolCallsIn at h
  unfold decodeToolCalls
  cases ht : jLookup mkvs "tool_calls" with
  | none => rfl
  | some tcs => simp [ht] at h ⊢; simp [h]

theorem decodeText_none (result : Json) (mkvs : List (String × Json))
    (h : noTextIn mkvs = true) : decodeText result mkvs = .ok [] := by
  unfold noTextIn at h
  unfold decodeText
  cases ht : jLookup mkvs "content" with
  | none => rfl
  | some c => simp [ht] at h ⊢; simp [h]

theorem msgId_ok (result : Json) (h : idOk result = true) :
    ∃ mid, msgId result = .ok mid := by
  unfold idOk at h
  unfold msgId
  cases hi : jGet? result "id" with
  | none => exact ⟨_, rfl⟩
  | some v => cases v <;> simp [hi] at h ⊢

/-- Claim C1: on every wire response whose expected top-level structure is
present (a first choice with a message dict), a successful decode never
yields an empty output list; and when the message carries neither
tool-call entries nor non-empty text content, the output is exactly one
text message whose text is the empty string. -/
theorem claim_C1_empty_output_synthesis :
    (∀ result out, decodeOutput result = Except.ok out → out ≠ []) ∧
    (∀ result mkvs, messageOf result = some mkvs →
       noToolCallsIn mkvs = true → noTextIn mkvs = true → idOk result = true →
       ∃ mid, decodeOutput result = Except.ok [OutputItem.message mid ""]) := by
  constructor
  · intro result out h
    unfold decodeOutput at h
    cases hc : jGet? result "choices" with
    | none => simp [hc] at h
    | some choices =>
      cases hi : jIdx? choices 0 with
      | none => simp [hc, hi] at h
      | some first =>
        cases hm : jGet? first "message" with
        | none => simp [hc, hi, hm] at h
        | some m =>
          cases m <;> simp [hc, hi, hm] at h
          exact decodeMessage_ne_nil result _ out h
  · intro result mkvs hmsg htc htx hid
    obtain ⟨mid, hmid⟩ := msgId_ok result hid
    refine ⟨mid, ?_⟩
    rw [messageOf_some_decode result mkvs hmsg]
    unfold decodeMessage
    rw [decodeToolCalls_none mkvs htc, decodeText_none result mkvs htx]
    simp [hmid]

/-- Witness for C1 at a concrete response whose message is an empty dict. -/
theorem claim_C1_empty_output_synthesis_witness :
    ([OutputItem.message "msg_r1" ""] : List OutputItem) ≠ [] ∧
    ∃ mid,
      decodeOutput (.obj [("id", .str "r1"), ("choices", .arr [.obj [("message", .obj [])]])])
        = Except.ok [OutputItem.message mid ""] :=
  ⟨claim_C1_empty_output_synthesis.1
      (.obj [("id", .str "r1"), ("choices", .arr [.obj [("message", .obj [])]])]) _ rfl,
   claim_C1_empty_output_synthesis.2
      (.obj [("id", .str "r1"), ("choices", .arr [.obj [("message", .obj [])]])]) [] rfl rfl rfl rfl⟩

/-- The spec's wire shape of one `tool_calls` entry: a call id plus a
`function` object carrying name and raw argument string. -/
structure TCSpec where
  id : String
  fnName : String
  arguments : String
  deriving DecidableEq

/-- Rendering of a `TCSpec` as the wire JSON entry. -/
def renderTC (s : TCSpec) : Json :=
  .obj [("id", .str s.id),
        ("function", .obj [("name", .str s.fnName), ("arguments", .str s.arguments)])]

/-- The canonical output item the decoder builds from one entry:
wire call id (used for both `id` and `call_id`), function name and raw
argument string, verbatim. -/
def mkToolCallItem (s : TCSpec) : OutputItem :=
  .toolCall s.id s.id s.fnName s.arguments

theorem decodeToolCall_render (s : TCSpec) :
    decodeToolCall (renderTC s) = .ok (mkToolCallItem s) := rfl

theorem decodeTCList_render (specs : List TCSpec) :
    decodeTCList (specs.map renderTC) = .ok (specs.map mkToolCallItem) := by
  induction specs with
  | nil => rfl
  | cons s rest ih => simp [decodeTCList, decodeToolCall_render, ih]

theorem decodeToolCalls_render (mkvs : List (String × Json)) (specs : List TCSpec)
    (h : jLookup mkvs "tool_calls" = some (.arr (specs.map renderTC)))
    (hne : specs ≠ []) :
    decodeToolCalls mkvs = .ok (specs.map mkToolCallItem) := by
  unfold decodeToolCalls
  rw [h]
  have htruthy : jTruthy (.arr (specs.map renderTC)) = true := by
    cases specs with
    | nil => exact absurd rfl hne
    | cons a l => simp [jTruthy]
  simp [htruthy, decodeTCList_render]

/-- Claim C5: on a structurally valid wire response, each tool-call entry
of the first choice's message becomes one `ToolCall` output item in wire
order, carrying call id, function name and raw argument string verbatim;
and when non-empty text is also present, the tool-call items all precede
the single text message. -/
theorem claim_C5_tool_calls_verbatim_order :
    ∀ result mkvs specs,
      messageOf result = some mkvs →
      jLookup mkvs "tool_calls" = some (.arr (specs.map renderTC)) →
      specs ≠ [] →
      ((noTextIn mkvs = true →
          decodeOutput result = Except.ok (specs.map mkToolCallItem)) ∧
       (∀ txt, jLookup mkvs "content" = some (.str txt) → txt ≠ "" → idOk result = true →
          ∃ mid, decodeOutput result
            = Except.ok (specs.map mkToolCallItem ++ [OutputItem.message mid txt]))) := by
  intro result mkvs specs hmsg htc hne
  have hmapne : specs.map mkToolCallItem ≠ [] := by
    cases specs with
    | nil => exact absurd rfl hne
    | cons a l => simp
  constructor
  · intro htx
    rw [messageOf_some_decode result mkvs hmsg]
    unfold decodeMessage
    rw [decodeToolCalls_render mkvs specs htc hne, decodeText_none result mkvs htx]
    simp [List.isEmpty_iff, hmapne]
  · intro txt hct htxt hid
    obtain ⟨mid, hmid⟩ := msgId_ok result hid
    refine ⟨mid, ?_⟩
    rw [messageOf_some_decode result mkvs hmsg]
    unfold decodeMessage
    rw [decodeToolCalls_render mkvs specs htc hne]
    have htext : decodeText result mkvs = .ok [OutputItem.message mid txt] := by
      unfold decodeText
      rw [hct]
      simp [jTruthy, htxt, hmid]
    rw [htext]
    simp [List.isEmpty_iff, hmapne]

/-- Witness for C5 at a concrete response carrying one tool call and
non-empty text. -/
theorem claim_C5_tool_calls_verbatim_order_witness :
    (decodeOutput (.obj [("id", .str "r1"),
        ("choices", .arr [.obj [("message", .obj [
          ("tool_calls", .arr [renderTC ⟨"c1", "ingest_financial_document", "a1"⟩])])]])])
      = Except.ok [OutputItem.toolCall "c1" "c1" "ingest_financial_document" "a1"]) ∧
    ∃ mid,
      decodeOutput (.obj [("id", .str "r1"),
          ("choices", .arr [.obj [("message", .obj [
            ("tool_calls", .arr [renderTC ⟨"c1", "ingest_financial_document", "a1"⟩]),
            ("content", .str "hello")])]])])
        = Except.ok ([OutputItem.toolCall "c1" "c1" "ingest_financial_document" "a1"]
            ++ [OutputItem.message mid "hello"]) :=
  ⟨(claim_C5_tool_calls_verbatim_order
      (.obj [("id", .str "r1"),
        ("choices", .arr [.obj [("message", .obj [
          ("tool_calls", .arr [renderTC ⟨"c1", "ingest_financial_document", "a1"⟩])])]])])
      [("tool_calls", .arr [renderTC ⟨"c1", "ingest_financial_document", "a1"⟩])]
      [⟨"c1", "ingest_financial_document", "a1"⟩]
      rfl rfl (by simp)).1 rfl,
   (claim_C5_tool_calls_verbatim_order
      (.obj [("id", .str "r1"),
          ("choices", .arr [.obj [("message", .obj [
            ("tool_calls", .arr [renderTC ⟨"c1", "ingest_financial_document", "a1"⟩]),
            ("content", .str "hello")])]])])
      [("tool_calls", .arr [renderTC ⟨"c1", "ingest_financial_document", "a1"⟩]),
       ("content", .str "hello")]
      [⟨"c1", "ingest_financial_document", "a1"⟩]
      rfl rfl (by simp)).2 "hello" rfl (by simp) rfl⟩

theorem decodeOutput_ok_inv (result : Json) (out : List OutputItem)
    (h : decodeOutput result = .ok out) :
    ∃ mkvs, messageOf result = some mkvs ∧ decodeMessage result mkvs = .ok out := by
  unfold decodeOutput at h
  unfold messageOf
  cases hc : jGet? result "choices" with
  | none => simp [hc] at h
  | some choices =>
    cases hi : jIdx? choices 0 with
    | none => simp [hc, hi] at h
    | some first =>
      cases hm : jGet? first "message" with
      | none => simp [hc, hi, hm] at h
      | some m =>
        cases m <;> simp [hc, hi, hm] at h ⊢
        exact h

theorem decodeToolCall_ok_shape (tc : Json) (item : OutputItem)
    (h : decodeToolCall tc = .ok item) :
    ∃ i n a, item = .toolCall i i n a := by
  unfold decodeToolCall at h
  repeat split at h
  all_goals cases h
  exact ⟨_, _, _, rfl⟩

theorem decodeTCList_shape (l : List Json) (out : List OutputItem)
    (h : decodeTCList l = .ok out) :
    ∀ x ∈ out, ∃ i n a, x = .toolCall i i n a := by
  induction l generalizing out with
  | nil =>
    unfold decodeTCList at h
    cases h
    intro x hx
    cases hx
  | cons tc rest ih =>
    unfold decodeTCList at h
    cases hd : decodeToolCall tc with
    | error e => simp [hd] at h
    | ok item =>
      cases hr : decodeTCList rest with
      | error e => simp [hd, hr] at h
      | ok items =>
        simp [hd, hr] at h
        intro x hx
        rw [← h] at hx
        rcases List.mem_cons.mp hx with hx1 | hx2
        · exact hx1 ▸ decodeToolCall_ok_shape tc item hd
        · exact ih items hr x hx2

theorem decodeTCList_cons_ne_nil (tc : Json) (rest : List Json) (out : List OutputItem)
    (h : decodeTCList (tc :: rest) = .ok out) : out ≠ [] := by
  unfold decodeTCList at h
  cases hd : decodeToolCall tc with
  | error e => simp [hd] at h
  | ok item =>
    cases hr : decodeTCList rest with
    | error e => simp [hd, hr] at h
    | ok items => simp [hd, hr] at h; simp [← h]

theorem decodeToolCalls_ok_nil (mkvs : List (String × Json))
    (h : decodeToolCalls mkvs = .ok []) : noToolCallsIn mkvs = true := by
  unfold decodeToolCalls at h
  unfold noToolCallsIn
  cases ht : jLookup mkvs "tool_calls" with
  | none => rfl
  | some tcs =>
    rw [ht] at h
    by_cases htr : jTruthy tcs
    · simp only [htr, if_pos] at h
      cases tcs <;> simp at h
      rename_i l
      cases l with
      | nil => simp [jTruthy] at htr
      | cons a rest => exact absurd rfl (decodeTCList_cons_ne_nil a rest [] h)
    · simp [htr]

theorem decodeToolCalls_shape (mkvs : List (String × Json)) (out : List OutputItem)
    (h : decodeToolCalls mkvs = .ok out) :
    ∀ x ∈ out, ∃ i n a, x = .toolCall i i n a := by
  unfold decodeToolCalls at h
  cases ht : jLookup mkvs "tool_calls" with
  | none => rw [ht] at h; cases h; intro x hx; cases hx
  | some tcs =>
    rw [ht] at h
    by_cases htr : jTruthy tcs
    · simp only [htr, if_pos] at h
      cases tcs <;> simp at h
      rename_i l
      exact decodeTCList_shape l out h
    · simp [htr] at h; subst h; intro x hx; cases hx

theorem decodeText_ok_cases (result : Json) (mkvs : List (String × Json))
    (out : List OutputItem) (h : decodeText result mkvs = .ok out) :
    out = [] ∨ ∃ mid t, out = [.message mid t] ∧ t ≠ "" := by
  unfold decodeText at h
  cases ht : jLookup mkvs "content" with
  | none => rw [ht] at h; cases h; exact Or.inl rfl
  | some c =>
    rw [ht] at h
    by_cases htr : jTruthy c
    · simp only [htr, if_pos] at h
      cases c <;> simp at h
      rename_i t
      cases hm : msgId result with
      | error e => simp [hm] at h
      | ok mid =>
        simp [hm] at h
        refine Or.inr ⟨mid, t, h.symm, ?_⟩
        simpa [jTruthy] using htr
    · simp [htr] at h; exact Or.inl h

theorem decodeText_ok_nil (result : Json) (mkvs : List (String × Json))
    (h : decodeText result mkvs = .ok []) : noTextIn mkvs = true := by
  unfold decodeText at h
  unfold noTextIn
  cases ht : jLookup mkvs "content" with
  | none => rfl
  | some c =>
    rw [ht] at h
    by_cases htr : jTruthy c
    · simp only [htr, if_pos] at h
      cases c <;> simp at h
      rename_i t
      cases hm : msgId result with
      | error e => simp [hm] at h
      | ok mid => simp [hm] at h
    · simp [htr]

/-- Claim C7: a response missing the expected top-level structure — no
`choices` entry, no first choice, or no `message` in the first choice —
makes the decoder raise (an error propagates to the caller); and the
single-empty-text synthesis arises only when the structure is present and
both `content` and `tool_calls` are absent or empty. -/
theorem claim_C7_decode_error_on_missing_structure :
    (∀ result, jGet? result "choices" = none → ∃ e, decodeOutput result = Except.error e) ∧
    (∀ result choices, jGet? result "choices" = some choices → jIdx? choices 0 = none →
       ∃ e, decodeOutput result = Except.error e) ∧
    (∀ result choices first, jGet? result "choices" = some choices →
       jIdx? choices 0 = some first → jGet? first "message" = none →
       ∃ e, decodeOutput result = Except.error e) ∧
    (∀ result mid, decodeOutput result = Except.ok [OutputItem.message mid ""] →
       ∃ mkvs, messageOf result = some mkvs ∧
         noToolCallsIn mkvs = true ∧ noTextIn mkvs = true) := by
  refine ⟨?_, ?_, ?_, ?_⟩
  · intro result h
    unfold decodeOutput
    simp [h]
  · intro result choices h1 h2
    unfold decodeOutput
    simp [h1, h2]
  · intro result choices first h1 h2 h3
    unfold decodeOutput
    simp [h1, h2, h3]
  · intro result mid h
    obtain ⟨mkvs, hmsg, hdm⟩ := decodeOutput_ok_inv result _ h
    refine ⟨mkvs, hmsg, ?_⟩
    unfold decodeMessage at hdm
    cases htc : decodeToolCalls mkvs with
    | error e => simp [htc] at hdm
    | ok toolItems =>
      cases htx : decodeText result mkvs with
      | error e => simp [htc, htx] at hdm
      | ok textItems =>
        simp only [htc, htx] at hdm
        by_cases he : (toolItems ++ textItems).isEmpty
        · have hnil : toolItems = [] ∧ textItems = [] := by
            simpa [List.isEmpty_iff] using he
          exact ⟨decodeToolCalls_ok_nil mkvs (hnil.1 ▸ htc),
                 decodeText_ok_nil result mkvs (hnil.2 ▸ htx)⟩
        · exfalso
          simp only [he, if_neg, if_false, Bool.false_eq_true] at hdm
          simp at hdm
          rcases decodeText_ok_cases result mkvs textItems htx with hxi | ⟨mid2, t, hxi, ht⟩
          · subst hxi
            simp only [List.append_nil] at hdm
            have hmem : OutputItem.message mid "" ∈ toolItems := by rw [hdm]; simp
            obtain ⟨i, n, a, hx⟩ := decodeToolCalls_shape mkvs toolItems htc _ hmem
            cases hx
          · subst hxi
            cases toolItems with
            | cons x xs => simp at hdm
            | nil =>
              simp at hdm
              exact ht hdm.2

/-- Witness for C7 at concrete responses missing each structural layer,
and at a concrete response where the synthesis fires. -/
theorem claim_C7_decode_error_on_missing_structure_witness :
    (∃ e, decodeOutput (.obj []) = Except.error e) ∧
    (∃ e, decodeOutput (.obj [("choices", .arr [])]) = Except.error e) ∧
    (∃ e, decodeOutput (.obj [("choices", .arr [.obj []])]) = Except.error e) ∧
    ∃ mkvs, messageOf (.obj [("choices", .arr [.obj [("message", .obj [])]])]) = some mkvs ∧
      noToolCallsIn mkvs = true ∧ noTextIn mkvs = true :=
  ⟨claim_C7_decode_error_on_missing_structure.1 (.obj []) rfl,
   claim_C7_decode_error_on_missing_structure.2.1 (.obj [("choices", .arr [])]) (.arr []) rfl rfl,
   claim_C7_decode_error_on_missing_structure.2.2.1
     (.obj [("choices", .arr [.obj []])]) (.arr [.obj []]) (.obj []) rfl rfl rfl,
   claim_C7_decode_error_on_missing_structure.2.2.2
     (.obj [("choices", .arr [.obj [("message", .obj [])]])]) "msg_unknown" rfl⟩

/-- Claim C2 (settled against the code as written): the input element `{}`
— a dict with neither `role`/`content` keys nor a `function_call_output`
tag — matches none of the four recognized shapes, and the loop silently
drops it: no message is appended and no error of any kind is raised
(`normalizeList` is total and yields the empty list here). -/
theorem claim_C2_unrecognized_element_silently_dropped :
    normItem (InputItem.dict []) = none ∧ normalizeList [InputItem.dict []] = [] :=
  ⟨rfl, rfl⟩

theorem jGet_buildBody_max_tokens (sys : Option String) (input : PyInput)
    (settings : Option PySettings) (tools : List PyTool) :
    jGet? (buildBody sys input settings tools) "max_tokens"
      = some (.num (maxTokensOf settings)) := by
  simp only [buildBody, jGet?]
  split
  · split <;> simp [jLookup]
  · simp [jLookup]

/-- Claim C3: the wire request's `max_tokens` equals the settings'
`max_tokens` whenever a settings object is supplied and exposes that
field, and equals the constant 4096 otherwise — including when the
settings object is entirely absent, in which case the (total) builder
still produces a request. -/
theorem claim_C3_max_tokens_default :
    ∀ sys input tools,
      (∀ s v, s.max_tokens = some v →
         jGet? (buildBody sys input (some s) tools) "max_tokens" = some (.num v)) ∧
      (∀ s, s.max_tokens = none →
         jGet? (buildBody sys input (some s) tools) "max_tokens" = some (.num 4096)) ∧
      jGet? (buildBody sys input none tools) "max_tokens" = some (.num 4096) := by
  intro sys input tools
  refine ⟨?_, ?_, ?_⟩
  · intro s v hv
    rw [jGet_buildBody_max_tokens]
    simp [maxTokensOf, hv]
  · intro s hv
    rw [jGet_buildBody_max_tokens]
    simp [maxTokensOf, hv]
  · rw [jGet_buildBody_max_tokens]
    rfl

/-- Witness for C3 at a concrete call: settings absent gives 4096, a
settings object with `max_tokens = 256` gives 256. -/
theorem claim_C3_max_tokens_default_witness :
    jGet? (buildBody none (.text "Hello") (some ⟨some 256⟩) []) "max_tokens"
        = some (.num 256) ∧
    jGet? (buildBody none (.text "Hello") none []) "max_tokens" = some (.num 4096) :=
  ⟨(claim_C3_max_tokens_default none (.text "Hello") []).1 ⟨some 256⟩ 256 rfl,
   (claim_C3_max_tokens_default none (.text "Hello") []).2.2⟩

/-- Claim C8: the usage mapper is total over responses whose `usage`
field, when present, is an object: a wholly absent usage object yields
all three counters 0, and with a usage object each counter independently
defaults to 0 when its key is missing and passes through exactly when
present. -/
theorem claim_C8_usage_zero_defaults :
    (∀ result, (jGet? result "usage" = none ∨ ∃ kvs, jGet? result "usage" = some (.obj kvs)) →
       ∃ u, mapUsage result = Except.ok u) ∧
    (∀ result, jGet? result "usage" = none →
       mapUsage result = Except.ok (.num 0, .num 0, .num 0)) ∧
    (∀ result kvs, jGet? result "usage" = some (.obj kvs) →
       mapUsage result = Except.ok
         ((jLookup kvs "prompt_tokens").getD (.num 0),
          (jLookup kvs "completion_tokens").getD (.num 0),
          (jLookup kvs "total_tokens").getD (.num 0))) := by
  refine ⟨?_, ?_, ?_⟩
  · intro result h
    rcases h with h | ⟨kvs, h⟩ <;> unfold mapUsage <;> rw [h] <;> exact ⟨_, rfl⟩
  · intro result h
    unfold mapUsage
    rw [h]
    rfl
  · intro result kvs h
    unfold mapUsage
    rw [h]
    rfl

/-- Witness for C8: an empty usage object yields all-zero counters, a
fully populated one passes through, and an absent one yields zeros. -/
theorem claim_C8_usage_zero_defaults_witness :
    (∃ u, mapUsage (.obj [("usage", .obj [])]) = Except.ok u) ∧
    mapUsage (.obj []) = Except.ok (.num 0, .num 0, .num 0) ∧
    mapUsage (.obj [("usage", .obj [("prompt_tokens", .num 10), ("completion_tokens", .num 5),
        ("total_tokens", .num 15)])])
      = Except.ok (.num 10, .num 5, .num 15) :=
  ⟨claim_C8_usage_zero_defaults.1 (.obj [("usage", .obj [])]) (Or.inr ⟨[], rfl⟩),
   claim_C8_usage_zero_defaults.2.1 (.obj []) rfl,
   claim_C8_usage_zero_defaults.2.2
     (.obj [("usage", .obj [("prompt_tokens", .num 10), ("completion_tokens", .num 5),
        ("total_tokens", .num 15)])])
     [("prompt_tokens", .num 10), ("completion_tokens", .num 5), ("total_tokens", .num 15)] rfl⟩

/-- Claim C4: when every offered tool exposes `name` and
`params_json_schema` (as the orchestrator's tool descriptors do), the
wire tools array is exactly the offered tools whose name is in the fixed
allow-list, rendered in their original order; and when that filtered set
is empty the request body carries no `tools` field at all. -/
theorem claim_C4_allow_list_filter :
    ∀ tools : List PyTool,
      (∀ t ∈ tools, t.name.isSome = true ∧ t.params_json_schema.isSome = true) →
      (filterTools tools
         = (tools.filter fun t => decide (t.name.getD "" ∈ allowedToolNames)).map wireToolOf) ∧
      (∀ sys input settings,
         (tools.filter fun t => decide (t.name.getD "" ∈ allowedToolNames)) = [] →
         jGet? (buildBody sys input settings tools) "tools" = none) := by
  intro tools hall
  have hfe : filterTools tools
      = (tools.filter fun t => decide (t.name.getD "" ∈ allowedToolNames)).map wireToolOf := by
    induction tools with
    | nil => rfl
    | cons t rest ih =>
      obtain ⟨hn, hs⟩ := hall t (List.mem_cons_self t rest)
      have hrest := fun x hx => hall x (List.mem_cons_of_mem t hx)
      by_cases hmem : t.name.getD "" ∈ allowedToolNames
      · simp [filterTools, List.filterMap_cons, List.filter_cons, hn, hs, hmem] at ih ⊢
        exact ih hrest
      · simp [filterTools, List.filterMap_cons, List.filter_cons, hn, hs, hmem] at ih ⊢
        exact ih hrest
  refine ⟨hfe, ?_⟩
  intro sys input settings hempty
  have hft : filterTools tools = [] := by rw [hfe, hempty]; rfl
  simp only [buildBody, jGet?]
  split
  · split
    · next hne =>
      rw [hft] at hne
      simp at hne
    · simp [jLookup]
  · simp [jLookup]

/-- Witness for C4: with offered tools `A` (allowed) and `B` (disallowed)
the filter keeps exactly `A`; with only `B` offered, the request body
omits the `tools` field. -/
theorem claim_C4_allow_list_filter_witness :
    (filterTools [⟨some "ingest_financial_document", some "d1", some (.obj [])⟩,
                  ⟨some "browser_tool", some "d2", some (.obj [])⟩]
       = [wireToolOf ⟨some "ingest_financial_document", some "d1", some (.obj [])⟩]) ∧
    jGet? (buildBody none (.text "Hello") none
        [⟨some "browser_tool", some "d2", some (.obj [])⟩]) "tools" = none := by
  constructor
  · have h := (claim_C4_allow_list_filter
      [⟨some "ingest_financial_document", some "d1", some (.obj [])⟩,
       ⟨some "browser_tool", some "d2", some (.obj [])⟩] (by decide)).1
    rw [h]
    rfl
  · exact (claim_C4_allow_list_filter
      [⟨some "browser_tool", some "d2", some (.obj [])⟩] (by decide)).2
      none (.text "Hello") none rfl

/-- Claim C10: a tool contributes to the wire tools array only if it
exposes both a `name` and a `params_json_schema` attribute; an offered
tool lacking either attribute — even one whose name would be allowed —
is silently excluded, with no error raised (the filter stays total). -/
theorem claim_C10_attribute_guard :
    (∀ tools : List PyTool,
       filterTools tools
         = filterTools (tools.filter fun t => t.name.isSome && t.params_json_schema.isSome)) ∧
    (∀ (t : PyTool) (tools : List PyTool), t.params_json_schema = none ∨ t.name = none →
       filterTools (t :: tools) = filterTools tools) ∧
    (∀ tools (j : Json), j ∈ filterTools tools →
       ∃ t ∈ tools, t.name.isSome = true ∧ t.params_json_schema.isSome = true ∧
         t.name.getD "" ∈ allowedToolNames ∧ j = wireToolOf t) := by
  refine ⟨?_, ?_, ?_⟩
  · intro tools
    induction tools with
    | nil => rfl
    | cons t rest ih =>
      cases hn : t.name with
      | none =>
        simp [filterTools, List.filterMap_cons, List.filter_cons, hn] at ih ⊢
        exact ih
      | some n =>
        cases hs : t.params_json_schema with
        | none =>
          simp [filterTools, List.filterMap_cons, List.filter_cons, hn, hs] at ih ⊢
          exact ih
        | some sch =>
          by_cases hmem : n ∈ allowedToolNames
          · simp [filterTools, List.filterMap_cons, List.filter_cons, hn, hs, hmem] at ih ⊢
            exact ih
          · simp [filterTools, List.filterMap_cons, List.filter_cons, hn, hs, hmem] at ih ⊢
            exact ih
  · intro t tools hmiss
    rcases hmiss with h | h <;>
      simp [filterTools, List.filterMap_cons, h]
  · intro tools j hj
    unfold filterTools at hj
    obtain ⟨t, ht, heq⟩ := List.mem_filterMap.mp hj
    by_cases hg : t.name.isSome && t.params_json_schema.isSome
    · rw [if_pos hg] at heq
      by_cases hmem : t.name.getD "" ∈ allowedToolNames
      · rw [if_pos hmem] at heq
        cases heq
        exact ⟨t, ht, (Bool.and_eq_true ..).mp hg |>.1, (Bool.and_eq_true ..).mp hg |>.2,
               hmem, rfl⟩
      · rw [if_neg hmem] at heq
        cases heq
    · rw [if_neg hg] at heq
      cases heq

/-- Witness for C10: an allow-listed tool that lacks `params_json_schema`
is dropped without error. -/
theorem claim_C10_attribute_guard_witness :
    filterTools [⟨some "ingest_financial_document", some "d1", none⟩] = filterTools [] :=
  claim_C10_attribute_guard.2.1 ⟨some "ingest_financial_document", some "d1", none⟩ []
    (Or.inl rfl)

/-- The four recognized turn shapes of the branch chain: plain text, a
dict with `role` and `content` keys, a dict tagged as tool output, an
accessor object with `role`/`content` or tagged as tool output. -/
def recognized : InputItem → Bool
  | .text _ => true
  | .dict kvs => ((jLookup kvs "role").isSome && (jLookup kvs "content").isSome)
      || isFCOTag (jLookup kvs "type")
  | .obj o => (o.role.isSome && o.content.isSome) || isFCOTag o.type
  | .otherVal => false

theorem recognized_iff_normItem (i : InputItem) :
    recognized i = (normItem i).isSome := by
  cases i with
  | text s => rfl
  | dict kvs =>
    cases hr : jLookup kvs "role" <;> cases hc : jLookup kvs "content" <;>
      cases hb : isFCOTag (jLookup kvs "type") <;>
        simp [recognized, normItem, hr, hc, hb]
  | obj o =>
    cases hr : o.role <;> cases hc : o.content <;>
      cases hb : isFCOTag o.type <;>
        simp [recognized, normItem, hr, hc, hb]
  | otherVal => rfl

/-- Claim C6: plain text normalizes to a single user turn; a list of N
recognized items normalizes to exactly N wire turns in input order, each
turn being the item's own translation; and the translation preserves the
item's role and coerced content for each shape. -/
theorem claim_C6_normalization_order :
    (∀ s, inputMessages (.text s)
       = [Json.obj [("role", .str "user"), ("content", .str s)]]) ∧
    (∀ items : List InputItem, (∀ i ∈ items, recognized i = true) →
       (normalizeList items).length = items.length ∧
       ∀ (k : Nat) (hk : k < items.length),
         (normalizeList items).get? k = normItem (items.get ⟨k, hk⟩)) ∧
    (∀ kvs r c, jLookup kvs "role" = some r → jLookup kvs "content" = some c →
       normItem (.dict kvs) = some (.obj [("role", r), ("content", .str (pyStr c))])) ∧
    (∀ kvs, (jLookup kvs "role").isSome = false ∨ (jLookup kvs "content").isSome = false →
       isFCOTag (jLookup kvs "type") = true →
       normItem (.dict kvs) = some (.obj [("role", .str "tool"),
         ("tool_call_id", (jLookup kvs "call_id").getD (.str "")),
         ("content", .str (pyStr ((jLookup kvs "output").getD (.str ""))))])) ∧
    (∀ (o : PyObj) r c, o.role = some r → o.content = some c →
       normItem (.obj o) = some (.obj [("role", r), ("content", .str (objContentStr c))])) := by
  refine ⟨fun s => rfl, ?_, ?_, ?_, ?_⟩
  · intro items
    induction items with
    | nil =>
      intro _
      exact ⟨rfl, fun k hk => absurd hk (by simp)⟩
    | cons i rest ih =>
      intro hall
      have hi : recognized i = true := hall i (List.mem_cons_self i rest)
      have hsome : (normItem i).isSome = true := recognized_iff_normItem i ▸ hi
      obtain ⟨m, hm⟩ := Option.isSome_iff_exists.mp hsome
      obtain ⟨ihlen, ihget⟩ := ih fun x hx => hall x (List.mem_cons_of_mem i hx)
      constructor
      · simp [normalizeList, List.filterMap_cons, hm] at ihlen ⊢
        exact ihlen
      · intro k hk
        cases k with
        | zero => simp [normalizeList, List.filterMap_cons, hm]
        | succ k2 =>
          simp only [normalizeList, List.filterMap_cons, hm, List.get?_cons_succ,
            List.get_cons_succ]
          exact ihget k2 (by simpa using hk)
  · intro kvs r c hr hc
    simp [normItem, hr, hc]
  · intro kvs hmiss htag
    rcases hmiss with h | h <;>
      cases hr : jLookup kvs "role" <;> cases hc : jLookup kvs "content" <;>
        simp_all [normItem, htag]
  · intro o r c hr hc
    simp [normItem, hr, hc]

/-- Witness for C6 at a concrete mixed four-element input: one element of
each recognized shape, normalized in order. -/
theorem claim_C6_normalization_order_witness :
    (normalizeList [.text "hi",
       .dict [("role", .str "assistant"), ("content", .str "yo")],
       .dict [("type", .str "function_call_output"), ("call_id", .str "c1"), ("output", .str "ok")],
       .obj { role := some (.str "user"), content := some (.parts [.withText "a", .plain "b"]) }]).length
      = 4 ∧
    (normalizeList [.text "hi",
       .dict [("role", .str "assistant"), ("content", .str "yo")],
       .dict [("type", .str "function_call_output"), ("call_id", .str "c1"), ("output", .str "ok")],
       .obj { role := some (.str "user"), content := some (.parts [.withText "a", .plain "b"]) }]).get? 1
      = normItem (.dict [("role", .str "assistant"), ("content", .str "yo")]) :=
  ⟨((claim_C6_normalization_order.2.1 [.text "hi",
       .dict [("role", .str "assistant"), ("content", .str "yo")],
       .dict [("type", .str "function_call_output"), ("call_id", .str "c1"), ("output", .str "ok")],
       .obj { role := some (.str "user"), content := some (.parts [.withText "a", .plain "b"]) }]
       (by intro i hi; fin_cases hi <;> rfl)).1),
   ((claim_C6_normalization_order.2.1 [.text "hi",
       .dict [("role", .str "assistant"), ("content", .str "yo")],
       .dict [("type", .str "function_call_output"), ("call_id", .str "c1"), ("output", .str "ok")],
       .obj { role := some (.str "user"), content := some (.parts [.withText "a", .plain "b"]) }]
       (by intro i hi; fin_cases hi <;> rfl)).2 1 (by simp))⟩

/-- A wire message whose `role` entry is the string `"system"`. -/
def isSystemMsg (m : Json) : Bool :=
  match jGet? m "role" with
  | some (.str r) => r == "system"
  | _ => false

/-- Claim C9: provided the input itself yields no system-role turns, a
system-role message appears in the built message list iff
`system_instructions` is truthy (non-empty), it is then the very first
message, preceding every turn derived from the input, and the list holds
at most one system-role message. -/
theorem claim_C9_system_message_placement :
    ∀ sys input, (∀ m ∈ inputMessages input, isSystemMsg m = false) →
      (∀ s, sys = some s → s ≠ "" →
         buildMessages sys input
           = Json.obj [("role", .str "system"), ("content", .str s)] :: inputMessages input) ∧
      (sysTruthy sys = false → buildMessages sys input = inputMessages input) ∧
      ((∃ m ∈ buildMessages sys input, isSystemMsg m = true) ↔ sysTruthy sys = true) ∧
      List.countP (fun m => isSystemMsg m) (buildMessages sys input) ≤ 1 := by
  intro sys input h
  have hzero : List.countP (fun m => isSystemMsg m) (inputMessages input) = 0 :=
    List.countP_eq_zero.mpr (by intro m hm; simp [h m hm])
  refine ⟨?_, ?_, ?_, ?_⟩
  · intro s hs hne
    subst hs
    simp [buildMessages, hne]
  · intro hf
    cases sys with
    | none => simp [buildMessages]
    | some s =>
      have hse : s = "" := by simpa [sysTruthy] using hf
      simp [buildMessages, hse]
  · cases sys with
    | none =>
      simp only [buildMessages, List.nil_append, sysTruthy]
      constructor
      · rintro ⟨m, hm, hsm⟩
        rw [h m hm] at hsm
        cases hsm
      · intro hf
        cases hf
    | some s =>
      by_cases hse : s = ""
      · subst hse
        simp only [buildMessages, sysTruthy]
        constructor
        · rintro ⟨m, hm, hsm⟩
          simp at hm
          rw [h m hm] at hsm
          cases hsm
        · intro hf
          simp at hf
      · constructor
        · intro _
          simp [sysTruthy, hse]
        · intro _
          refine ⟨Json.obj [("role", .str "system"), ("content", .str s)], ?_, rfl⟩
          simp [buildMessages, hse]
  · unfold buildMessages
    rw [List.countP_append, hzero]
    cases sys with
    | none => simp
    | some s =>
      by_cases hse : s = "" <;> simp [hse, isSystemMsg, jGet?, jLookup]

/-- Witness for C9 at concrete calls: non-empty instructions are
prepended as the first message; empty or absent instructions add
nothing. -/
theorem claim_C9_system_message_placement_witness :
    (buildMessages (some "be brief") (.text "Hello")
       = Json.obj [("role", .str "system"), ("content", .str "be brief")]
           :: inputMessages (.text "Hello")) ∧
    buildMessages none (.text "Hello") = inputMessages (.text "Hello") :=
  ⟨(claim_C9_system_message_placement (some "be brief") (.text "Hello")
      (by intro m hm; simp [inputMessages] at hm; subst hm; rfl)).1
      "be brief" rfl (by simp),
   (claim_C9_system_message_placement none (.text "Hello")
      (by intro m hm; simp [inputMessages] at hm; subst hm; rfl)).2.1 rfl⟩
